import Mathlib

/-!
Verification of the litesoph task-orchestration subsystem against its
specification.  Text is modelled as lists of characters; the job-script
builder, the task lifecycle flags, the completion check, the NWChem
ground-state parameter validation and the directory-allocation scheme are
shallowly embedded from `src/litesoph/common/task.py` and
`src/litesoph/engines/nwchem/nwchem_task.py`.
-/

/-- Text is a list of characters (mirrors Python `str`). -/
abbrev Str := List Char

/-- Coerce a Lean string literal into the `Str` model. -/
def str (s : String) : Str := s.data

/-- Split a text into its lines at every newline character
(the semantics of splitting the joined script back into lines). -/
def splitLines : Str → List Str
  | [] => [[]]
  | c :: rest =>
    if c = '\n' then [] :: splitLines rest
    else
      match splitLines rest with
      | [] => [[c]]
      | l :: ls => (c :: l) :: ls

/-- Join a list of lines with newline characters
(mirrors Python's `'\x5cn'.join`). -/
def joinLines : List Str → Str
  | [] => []
  | [a] => a
  | a :: b :: rest => a ++ '\n' :: joinLines (b :: rest)

/-- Last element of a list, if any. -/
def lastElem : List Str → Option Str
  | [] => none
  | [a] => some a
  | _ :: b :: rest => lastElem (b :: rest)

/-- Whether `s` occurs at the start of `l` (mirrors Python `str.startswith`). -/
def prefB : Str → Str → Bool
  | [], _ => true
  | _ :: _, [] => false
  | c :: s, d :: l => if c = d then prefB s l else false

/-- Whether `s` occurs anywhere inside `l` (mirrors Python `s in l`). -/
def substrB (s : Str) : Str → Bool
  | [] => s.isEmpty
  | d :: rest => prefB s (d :: rest) || substrB s rest

theorem splitLines_ne_nil (s : Str) : splitLines s ≠ [] := by
  cases s with
  | nil => simp [splitLines]
  | cons c rest =>
    simp only [splitLines]
    split
    · simp
    · split <;> simp

theorem splitLines_append_nl (a b : Str) :
    splitLines (a ++ '\n' :: b) = splitLines a ++ splitLines b := by
  induction a with
  | nil => simp [splitLines]
  | cons c a ih =>
    by_cases hc : c = '\n'
    · subst hc
      simp [splitLines, ih]
    · simp only [List.cons_append, splitLines, hc, if_false]
      rw [List.append_eq, ih]
      cases h : splitLines a with
      | nil => exact absurd h (splitLines_ne_nil a)
      | cons l ls => simp

theorem head?_append_left (l m : List Str) (h : l ≠ []) :
    (l ++ m).head? = l.head? := by
  cases l with
  | nil => exact absurd rfl h
  | cons x xs => rfl

theorem lastElem_append : ∀ (l m : List Str), m ≠ [] →
    lastElem (l ++ m) = lastElem m
  | [], _, _ => rfl
  | [x], m, h => by
    cases m with
    | nil => exact absurd rfl h
    | cons y ys => rfl
  | x :: y :: t, m, h => by
    have ih := lastElem_append (y :: t) m h
    simpa [lastElem] using ih

theorem joinLines_cons (a : Str) (l : List Str) (h : l ≠ []) :
    joinLines (a :: l) = a ++ '\n' :: joinLines l := by
  cases l with
  | nil => exact absurd rfl h
  | cons x xs => rfl

theorem joinLines_concat : ∀ (l : List Str) (a : Str), l ≠ [] →
    joinLines (l ++ [a]) = joinLines l ++ '\n' :: a
  | [], _, h => absurd rfl h
  | [x], a, _ => rfl
  | x :: y :: t, a, _ => by
    have ih := joinLines_concat (y :: t) a (by simp)
    show x ++ '\n' :: joinLines ((y :: t) ++ [a]) =
      (x ++ '\n' :: joinLines (y :: t)) ++ '\n' :: a
    rw [ih]
    simp

theorem head_splitLines_join (a : Str) (l : List Str) :
    (splitLines (joinLines (a :: l))).head? = (splitLines a).head? := by
  cases l with
  | nil => rfl
  | cons x xs =>
    rw [joinLines_cons a (x :: xs) (by simp), splitLines_append_nl]
    exact head?_append_left _ _ (splitLines_ne_nil a)

theorem last_splitLines_join (l : List Str) (a : Str) (h : l ≠ []) :
    lastElem (splitLines (joinLines (l ++ [a]))) = lastElem (splitLines a) := by
  rw [joinLines_concat l a h, splitLines_append_nl]
  exact lastElem_append _ _ (splitLines_ne_nil a)

theorem prefB_sep : ∀ (a : Str) {s : Str} {x : Char}, x ∉ s → ∀ (b : Str),
    prefB s (a ++ x :: b) = true → prefB s a = true
  | [], s, x, hx, b, h => by
    cases s with
    | nil => rfl
    | cons c s' =>
      by_cases hcx : c = x
      · exact absurd (hcx ▸ List.mem_cons_self c s') hx
      · simp [prefB, hcx] at h
  | d :: a', s, x, hx, b, h => by
    cases s with
    | nil => rfl
    | cons c s' =>
      have hx' : x ∉ s' := fun m => hx (List.mem_cons_of_mem c m)
      by_cases hcd : c = d
      · simp only [List.cons_append, prefB, hcd, if_true] at h ⊢
        exact prefB_sep a' hx' b h
      · simp [prefB, hcd] at h

theorem substrB_sep : ∀ (a : Str) {s : Str} {x : Char}, x ∉ s → ∀ (b : Str),
    substrB s (a ++ x :: b) = true →
    substrB s a = true ∨ substrB s b = true
  | [], s, x, hx, b, h => by
    simp only [List.nil_append, substrB, Bool.or_eq_true] at h
    cases h with
    | inl h =>
      have hs : prefB s [] = true := prefB_sep [] hx b h
      left
      cases s with
      | nil => rfl
      | cons c s' => simp [prefB] at hs
    | inr h => exact Or.inr h
  | d :: a', s, x, hx, b, h => by
    simp only [List.cons_append, substrB, Bool.or_eq_true] at h
    cases h with
    | inl h =>
      have : prefB s (d :: a') = true := by
        have := prefB_sep (d :: a') hx b (by simpa using h)
        exact this
      left
      simp [substrB, this]
    | inr h =>
      cases substrB_sep a' hx b h with
      | inl h' => left; simp [substrB, h']
      | inr h' => exact Or.inr h'

theorem substrB_join : ∀ (chunks : List Str) {s : Str}, s ≠ [] → '\n' ∉ s →
    substrB s (joinLines chunks) = true →
    ∃ c, c ∈ chunks ∧ substrB s c = true
  | [], s, hs, _, h => by
    cases s with
    | nil => exact absurd rfl hs
    | cons c s' => simp [joinLines, substrB] at h
  | [a], s, _, _, h => ⟨a, by simp, h⟩
  | a :: b :: t, s, hs, hn, h => by
    rw [joinLines_cons a (b :: t) (by simp)] at h
    cases substrB_sep a hn (joinLines (b :: t)) h with
    | inl h' => exact ⟨a, by simp, h'⟩
    | inr h' =>
      obtain ⟨c, hc, hsub⟩ := substrB_join (b :: t) hs hn h'
      exact ⟨c, List.mem_cons_of_mem a hc, hsub⟩

theorem prefB_append_self : ∀ (s t : Str), prefB s (s ++ t) = true
  | [], _ => rfl
  | c :: s', t => by simp [prefB, prefB_append_self s' t]

theorem substrB_append_right : ∀ (a : Str) {s b : Str},
    substrB s b = true → substrB s (a ++ b) = true
  | [], _, _, h => h
  | d :: a', s, b, h => by
    simp only [List.cons_append, substrB, Bool.or_eq_true]
    exact Or.inr (substrB_append_right a' h)

theorem substrB_self_append (s t : Str) : substrB s (s ++ t) = true := by
  cases s with
  | nil =>
    cases t with
    | nil => rfl
    | cons d rest => simp [substrB, prefB]
  | cons c s' =>
    have := prefB_append_self (c :: s') t
    simp only [List.cons_append] at this ⊢
    simp [substrB, this]

/-- Decimal digit character of a value below ten. -/
def digitChar : Nat → Char
  | 0 => '0' | 1 => '1' | 2 => '2' | 3 => '3' | 4 => '4'
  | 5 => '5' | 6 => '6' | 7 => '7' | 8 => '8' | _ => '9'

/-- Fuelled decimal rendering (most significant digit first). -/
def natToStrAux : Nat → Nat → Str
  | 0, _ => []
  | fuel + 1, n =>
    if n < 10 then [digitChar n]
    else natToStrAux fuel (n / 10) ++ [digitChar (n % 10)]

/-- Decimal rendering of a natural number (mirrors Python's `d` format). -/
def natToStr (n : Nat) : Str := natToStrAux (n + 1) n

/-- Numeric value accumulated over decimal digit characters. -/
def strVal (s : Str) : Nat :=
  s.foldl (fun acc c => 10 * acc + (c.toNat - 48)) 0

theorem digitChar_toNat {d : Nat} (h : d < 10) : (digitChar d).toNat = 48 + d := by
  interval_cases d <;> decide

theorem strVal_append_digit (a : Str) (c : Char) :
    strVal (a ++ [c]) = 10 * strVal a + (c.toNat - 48) := by
  simp [strVal, List.foldl_append]

theorem strVal_natToStrAux : ∀ (fuel n : Nat), n < fuel →
    strVal (natToStrAux fuel n) = n
  | 0, n, h => absurd h (Nat.not_lt_zero n)
  | fuel + 1, n, h => by
    by_cases h10 : n < 10
    · simp [natToStrAux, h10, strVal, digitChar_toNat h10]
    · have hn10 : 10 ≤ n := Nat.le_of_not_lt h10
      have hdiv : n / 10 < fuel := by
        have h1 : n / 10 < n := Nat.div_lt_self (by omega) (by omega)
        omega
      have ih := strVal_natToStrAux fuel (n / 10) hdiv
      have hmod : n % 10 < 10 := Nat.mod_lt n (by omega)
      simp only [natToStrAux, h10, if_false]
      rw [strVal_append_digit, ih, digitChar_toNat hmod]
      omega

theorem strVal_natToStr (n : Nat) : strVal (natToStr n) = n :=
  strVal_natToStrAux (n + 1) n (Nat.lt_succ_self n)

theorem natToStr_injective : Function.Injective natToStr := by
  intro a b h
  have := strVal_natToStr a
  rw [h, strVal_natToStr] at this
  exact this.symm

/-- Python truthiness of an optional string argument
(absent and empty both count as false). -/
def pyTruthy : Option Str → Bool
  | none => false
  | some s => !(s.isEmpty)

/-- The underlying text of an optional argument. -/
def optStr (o : Option Str) : Str := o.getD []

/-- First line of every job script (`Task.job_script_first_line`). -/
def job_script_first_line : Str := str "#!/bin/bash"

/-- Sentinel-creation command appended to remote job scripts
(`Task.remote_job_script_last_line`). -/
def remote_job_script_last_line : Str := str "touch Done"

/-- Execution line appended by `assemable_job_cmd` when a command is given:
a parallel-launcher invocation when `np > 1`, otherwise a subshell that
echoes its process id before running the command. -/
def exec_line (np : Int) (mpi_path : Option Str) (engine_cmd : Str) : Str :=
  if 1 < np then
    (if pyTruthy mpi_path then optStr mpi_path else str "mpirun")
      ++ str " -np " ++ natToStr np.toNat ++ str " " ++ engine_cmd
  else
    str "bash -c 'echo $$;  " ++ engine_cmd ++ str "'"

/-- Middle section of the job script assembled by `assemable_job_cmd`:
scheduler and module blocks (remote only), the cd line, the execution
line and the extra block, in the source's order. -/
def asm_mid (engine_cmd : Option Str) (np : Int) (cd_path mpi_path : Option Str)
    (remote : Bool) (scheduler_block module_load_block extra_block : Option Str) :
    List Str :=
  (if remote then
      (if pyTruthy scheduler_block then [optStr scheduler_block] else [])
        ++ (if pyTruthy module_load_block then [optStr module_load_block] else [])
    else [])
  ++ (if pyTruthy cd_path then [str "cd " ++ optStr cd_path ++ str ";"] else [])
  ++ (if pyTruthy engine_cmd then [exec_line np mpi_path (optStr engine_cmd)] else [])
  ++ (if pyTruthy extra_block then [optStr extra_block] else [])

/-- The list of chunks `assemable_job_cmd` appends before joining them. -/
def assemable_job_cmd_lines (engine_cmd : Option Str) (np : Int)
    (cd_path mpi_path : Option Str) (remote : Bool)
    (scheduler_block module_load_block extra_block : Option Str) : List Str :=
  job_script_first_line ::
    (asm_mid engine_cmd np cd_path mpi_path remote scheduler_block module_load_block extra_block
      ++ (if remote then [remote_job_script_last_line] else []))

/-- The assembled job script (`assemable_job_cmd` in
`src/litesoph/common/task.py`): the chunks joined by newlines. -/
def assemable_job_cmd (engine_cmd : Option Str) (np : Int)
    (cd_path mpi_path : Option Str) (remote : Bool)
    (scheduler_block module_load_block extra_block : Option Str) : Str :=
  joinLines (assemable_job_cmd_lines engine_cmd np cd_path mpi_path remote
    scheduler_block module_load_block extra_block)

theorem mem_asm_mid_local (engine_cmd : Option Str) (np : Int)
    (cd_path mpi_path sb mb eb : Option Str) {c : Str}
    (hc : c ∈ asm_mid engine_cmd np cd_path mpi_path false sb mb eb) :
    c = str "cd " ++ optStr cd_path ++ str ";"
    ∨ c = exec_line np mpi_path (optStr engine_cmd)
    ∨ c = optStr eb := by
  simp [asm_mid] at hc
  rcases hc with ⟨-, h⟩ | ⟨-, h⟩ | ⟨-, h⟩
  · exact Or.inl h
  · exact Or.inr (Or.inl h)
  · exact Or.inr (Or.inr h)

/-- C1 (amended): every assembled job script has the interpreter directive
as its first line and, when `remote = true`, the sentinel-creation command
as its last line — both unconditionally; when `remote = false` the builder
appends no sentinel, so whenever the sentinel text occurs in none of the
caller-derived chunks (the cd line, the execution line, the extra block)
it does not occur in the script. -/
theorem c1_job_script_shape (engine_cmd : Option Str) (np : Int)
    (cd_path mpi_path : Option Str) (remote : Bool)
    (scheduler_block module_load_block extra_block : Option Str) :
    (splitLines (assemable_job_cmd engine_cmd np cd_path mpi_path remote
        scheduler_block module_load_block extra_block)).head?
      = some job_script_first_line
    ∧ (remote = true →
        lastElem (splitLines (assemable_job_cmd engine_cmd np cd_path mpi_path remote
          scheduler_block module_load_block extra_block))
          = some remote_job_script_last_line)
    ∧ (remote = false →
        substrB remote_job_script_last_line
          (str "cd " ++ optStr cd_path ++ str ";") = false →
        substrB remote_job_script_last_line
          (exec_line np mpi_path (optStr engine_cmd)) = false →
        substrB remote_job_script_last_line (optStr extra_block) = false →
        substrB remote_job_script_last_line
          (assemable_job_cmd engine_cmd np cd_path mpi_path remote
            scheduler_block module_load_block extra_block) = false) := by
  refine ⟨?_, ?_, ?_⟩
  · show (splitLines (joinLines (job_script_first_line :: _))).head? = _
    rw [head_splitLines_join]
    decide
  · intro hr
    subst hr
    have hlines : assemable_job_cmd_lines engine_cmd np cd_path mpi_path true
        scheduler_block module_load_block extra_block
        = (job_script_first_line :: asm_mid engine_cmd np cd_path mpi_path true
            scheduler_block module_load_block extra_block)
          ++ [remote_job_script_last_line] := by
      simp [assemable_job_cmd_lines]
    show lastElem (splitLines (joinLines _)) = _
    rw [hlines, last_splitLines_join _ _ (by simp)]
    decide
  · intro hr h1 h2 h3
    subst hr
    cases hsub : substrB remote_job_script_last_line
        (assemable_job_cmd engine_cmd np cd_path mpi_path false
          scheduler_block module_load_block extra_block) with
    | false => rfl
    | true =>
      exfalso
      unfold assemable_job_cmd at hsub
      obtain ⟨c, hc, hcs⟩ := substrB_join _ (by decide) (by decide) hsub
      simp only [assemable_job_cmd_lines, Bool.false_eq_true, if_false,
        List.append_nil, List.mem_cons] at hc
      cases hc with
      | inl h =>
        subst h
        exact absurd hcs (by decide)
      | inr h =>
        rcases mem_asm_mid_local engine_cmd np cd_path mpi_path
          scheduler_block module_load_block extra_block h with he | he | he
        · rw [he, h1] at hcs
          exact Bool.false_ne_true hcs
        · rw [he, h2] at hcs
          exact Bool.false_ne_true hcs
        · rw [he, h3] at hcs
          exact Bool.false_ne_true hcs

/-- C1 counterexample: with `remote = false` and the extra block equal to
the sentinel command, the assembled script does contain the sentinel
command, so the claim's no-sentinel clause fails as stated. -/
theorem c1_counterexample :
    substrB remote_job_script_last_line
      (assemable_job_cmd none 1 none none false none none
        (some (str "touch Done"))) = true := by decide

/-- C1 witness: a concrete local call; the first-line clause holds, the
remote clause is vacuous, and with sentinel-free inputs no sentinel occurs
in the script. -/
theorem c1_job_script_shape_witness :
    (splitLines (assemable_job_cmd none 1 none none false none none none)).head?
      = some job_script_first_line
    ∧ (false = true →
        lastElem (splitLines (assemable_job_cmd none 1 none none false none none none))
          = some remote_job_script_last_line)
    ∧ (false = false →
        substrB remote_job_script_last_line
          (str "cd " ++ optStr (none : Option Str) ++ str ";") = false →
        substrB remote_job_script_last_line
          (exec_line 1 none (optStr (none : Option Str))) = false →
        substrB remote_job_script_last_line (optStr (none : Option Str)) = false →
        substrB remote_job_script_last_line
          (assemable_job_cmd none 1 none none false none none none) = false) :=
  c1_job_script_shape none 1 none none false none none none

theorem exec_line_mem_lines (engine_cmd : Str) (np : Int)
    (cd_path mpi_path : Option Str) (remote : Bool)
    (scheduler_block module_load_block extra_block : Option Str)
    (h : engine_cmd ≠ []) :
    exec_line np mpi_path engine_cmd ∈
      assemable_job_cmd_lines (some engine_cmd) np cd_path mpi_path remote
        scheduler_block module_load_block extra_block := by
  have hcmd : pyTruthy (some engine_cmd) = true := by
    cases engine_cmd with
    | nil => exact absurd rfl h
    | cons c t => rfl
  have hopt : optStr (some engine_cmd) = engine_cmd := rfl
  simp [assemable_job_cmd_lines, asm_mid, hcmd, hopt]

/-- C2 (amended): for a non-empty command, when `process_count > 1` the
execution line is the launcher invocation carrying the exact process
count (it contains the token ` -np <count> ` as a substring), and when
`process_count = 1` it is exactly the process-id-echoing subshell wrapping
the command verbatim, so the builder itself adds no launcher token. -/
theorem c2_execution_line (engine_cmd : Str) (np : Int)
    (cd_path mpi_path : Option Str) (remote : Bool)
    (scheduler_block module_load_block extra_block : Option Str)
    (h : engine_cmd ≠ []) :
    exec_line np mpi_path engine_cmd ∈
      assemable_job_cmd_lines (some engine_cmd) np cd_path mpi_path remote
        scheduler_block module_load_block extra_block
    ∧ (1 < np →
        exec_line np mpi_path engine_cmd
          = (if pyTruthy mpi_path then optStr mpi_path else str "mpirun")
            ++ str " -np " ++ natToStr np.toNat ++ str " " ++ engine_cmd
        ∧ substrB (str " -np " ++ natToStr np.toNat ++ str " ")
            (exec_line np mpi_path engine_cmd) = true)
    ∧ (np = 1 →
        exec_line np mpi_path engine_cmd
          = str "bash -c 'echo $$;  " ++ engine_cmd ++ str "'") := by
  refine ⟨exec_line_mem_lines engine_cmd np cd_path mpi_path remote
    scheduler_block module_load_block extra_block h, ?_, ?_⟩
  · intro hnp
    constructor
    · simp [exec_line, hnp]
    · have hrw : exec_line np mpi_path engine_cmd
          = (if pyTruthy mpi_path then optStr mpi_path else str "mpirun")
            ++ ((str " -np " ++ natToStr np.toNat ++ str " ") ++ engine_cmd) := by
        simp [exec_line, hnp, List.append_assoc]
      rw [hrw]
      exact substrB_append_right _ (substrB_self_append _ _)
  · intro hnp
    subst hnp
    norm_num [exec_line]

/-- C2 counterexample: with `process_count = 1` and a command whose text
contains launcher-style text, the execution line does contain the launcher
token with a count, so the claim's no-launcher-token clause fails as
stated. -/
theorem c2_counterexample :
    exec_line 1 none (str "foo -np 2 bar")
      = str "bash -c 'echo $$;  foo -np 2 bar'"
    ∧ substrB (str " -np 2") (exec_line 1 none (str "foo -np 2 bar")) = true := by
  constructor
  · decide
  · decide

/-- C2 witness: a concrete four-process call; the execution line is the
launcher invocation and appears among the script's chunks. -/
theorem c2_execution_line_witness :
    (str "nwchem gs.nwi > gs.nwo" ≠ [])
    ∧ (exec_line 4 none (str "nwchem gs.nwi > gs.nwo") ∈
        assemable_job_cmd_lines (some (str "nwchem gs.nwi > gs.nwo")) 4
          (some (str "/proj/nwchem/ground_state")) none false none none none
      ∧ (1 < (4 : Int) →
          exec_line 4 none (str "nwchem gs.nwi > gs.nwo")
            = (if pyTruthy none then optStr none else str "mpirun")
              ++ str " -np " ++ natToStr (4 : Int).toNat ++ str " "
              ++ str "nwchem gs.nwi > gs.nwo"
          ∧ substrB (str " -np " ++ natToStr (4 : Int).toNat ++ str " ")
              (exec_line 4 none (str "nwchem gs.nwi > gs.nwo")) = true)
      ∧ ((4 : Int) = 1 →
          exec_line 4 none (str "nwchem gs.nwi > gs.nwo")
            = str "bash -c 'echo $$;  " ++ str "nwchem gs.nwi > gs.nwo" ++ str "'")) :=
  ⟨by decide,
    c2_execution_line (str "nwchem gs.nwi > gs.nwo") 4
      (some (str "/proj/nwchem/ground_state")) none false none none none (by decide)⟩

/-- C10: with `process_count > 1` and no parallel-launcher path configured
(absent or empty), the execution line falls back to the literal launcher,
reading exactly `mpirun -np <count> <command>`, and it appears among the
script's chunks. -/
theorem c10_mpirun_fallback (engine_cmd : Str) (np : Int)
    (cd_path : Option Str) (remote : Bool)
    (scheduler_block module_load_block extra_block : Option Str)
    (mpi_path : Option Str)
    (h1 : 1 < np) (h2 : pyTruthy mpi_path = false) (h3 : engine_cmd ≠ []) :
    exec_line np mpi_path engine_cmd
      = str "mpirun -np " ++ natToStr np.toNat ++ str " " ++ engine_cmd
    ∧ exec_line np mpi_path engine_cmd ∈
        assemable_job_cmd_lines (some engine_cmd) np cd_path mpi_path remote
          scheduler_block module_load_block extra_block := by
  constructor
  · have hm : (str "mpirun" : Str) ++ str " -np " = str "mpirun -np " := by decide
    calc exec_line np mpi_path engine_cmd
        = str "mpirun" ++ str " -np " ++ natToStr np.toNat ++ str " " ++ engine_cmd := by
          simp [exec_line, h1, h2]
      _ = (str "mpirun" ++ str " -np ") ++ natToStr np.toNat ++ str " " ++ engine_cmd := by
          simp [List.append_assoc]
      _ = str "mpirun -np " ++ natToStr np.toNat ++ str " " ++ engine_cmd := by
          rw [hm]
  · exact exec_line_mem_lines engine_cmd np cd_path mpi_path remote
      scheduler_block module_load_block extra_block h3

/-- C10 witness: four processes, no configured launcher path, a concrete
command; the execution line is exactly the mpirun fallback. -/
theorem c10_mpirun_fallback_witness :
    (1 < (4 : Int) ∧ pyTruthy none = false ∧ str "nwchem td.nwi > td.nwo" ≠ [])
    ∧ (exec_line 4 none (str "nwchem td.nwi > td.nwo")
        = str "mpirun -np " ++ natToStr (4 : Int).toNat ++ str " "
          ++ str "nwchem td.nwi > td.nwo"
      ∧ exec_line 4 none (str "nwchem td.nwi > td.nwo") ∈
          assemable_job_cmd_lines (some (str "nwchem td.nwi > td.nwo")) 4
            (some (str "/proj/nwchem/rt_tddft")) none false none none none) :=
  ⟨⟨by decide, by decide, by decide⟩,
    c10_mpirun_fallback (str "nwchem td.nwi > td.nwo") 4
      (some (str "/proj/nwchem/rt_tddft")) false none none none none
      (by decide) (by decide) (by decide)⟩

/-- Boolean membership of a directory name in the set of existing
directories (mirrors a filesystem existence check). -/
def memB (x : Str) : List Str → Bool
  | [] => false
  | y :: t => if x = y then true else memB x t

theorem memB_eq_true_iff (x : Str) : ∀ (l : List Str), memB x l = true ↔ x ∈ l
  | [] => by simp [memB]
  | y :: t => by
    by_cases hxy : x = y
    · subst hxy
      simp [memB]
    · simp [memB, hxy, memB_eq_true_iff x t]

/-- Sibling directory name minted by suffixing an integer. -/
def suffixed (name : Str) (n : Nat) : Str := name ++ str "_" ++ natToStr n

theorem suffixed_injective (name : Str) :
    Function.Injective (fun n => suffixed name (n + 1)) := by
  intro a b h
  simp only [suffixed] at h
  have h1 := List.append_cancel_left h
  exact Nat.succ_injective (natToStr_injective h1)

theorem exists_unused (existing : List Str) (name : Str) :
    ∃ n : Nat, memB (suffixed name (n + 1)) existing = false := by
  by_contra hall
  push_neg at hall
  have hmem : ∀ n : Nat, suffixed name (n + 1) ∈ existing := by
    intro n
    have hne := hall n
    cases hb : memB (suffixed name (n + 1)) existing with
    | false => exact absurd hb hne
    | true => exact (memB_eq_true_iff _ existing).mp hb
  have hsub : Set.range (fun n => suffixed name (n + 1)) ⊆ {x | x ∈ existing} := by
    rintro x ⟨n, rfl⟩
    exact hmem n
  have hinf : (Set.range (fun n => suffixed name (n + 1))).Infinite :=
    Set.infinite_range_of_injective (suffixed_injective name)
  exact hinf (existing.finite_toSet.subset hsub)

/-- Modelled from the spec: `get_new_directory`
(`litesoph/common/utils.py`, not under `src/`), as described by the
directory naming convention — the canonical name is used when it does not
exist yet; otherwise a sibling name `<name>_<n>` is minted, `n` starting
at the next unused integer. -/
def get_new_directory (existing : List Str) (name : Str) : Str :=
  if memB name existing then
    suffixed name (Nat.find (exists_unused existing name) + 1)
  else name

theorem get_new_directory_fresh (existing : List Str) (name : Str) :
    memB (get_new_directory existing name) existing = false := by
  unfold get_new_directory
  by_cases h : memB name existing = true
  · rw [if_pos h]
    exact Nat.find_spec (exists_unused existing name)
  · rw [if_neg h]
    exact Bool.eq_false_iff.mpr h

/-- Modelled from the spec: one pipeline run's sequence of task-directory
allocations — each requested canonical name is resolved through
`get_new_directory` against the directories existing so far, and the
allocated directory then exists for all later allocations. -/
def alloc_run (existing : List Str) : List Str → List Str
  | [] => []
  | name :: names =>
    let d := get_new_directory existing name
    d :: alloc_run (d :: existing) names

theorem alloc_run_not_mem : ∀ (names : List Str) (existing : List Str) (d : Str),
    d ∈ alloc_run existing names → d ∉ existing
  | [], _, _, hd => by simp [alloc_run] at hd
  | name :: names, existing, d, hd => by
    simp only [alloc_run, List.mem_cons] at hd
    cases hd with
    | inl h =>
      subst h
      intro hmem
      have hfresh := get_new_directory_fresh existing name
      rw [(memB_eq_true_iff _ existing).mpr hmem] at hfresh
      exact Bool.noConfusion hfresh
    | inr h =>
      have := alloc_run_not_mem names (get_new_directory existing name :: existing) d h
      intro hmem
      exact this (List.mem_cons_of_mem _ hmem)

theorem alloc_run_nodup : ∀ (names : List Str) (existing : List Str),
    (alloc_run existing names).Nodup
  | [], _ => List.nodup_nil
  | name :: names, existing => by
    simp only [alloc_run, List.nodup_cons]
    constructor
    · intro hmem
      have := alloc_run_not_mem names (get_new_directory existing name :: existing)
        (get_new_directory existing name) hmem
      exact this (List.mem_cons_self _ _)
    · exact alloc_run_nodup names (get_new_directory existing name :: existing)

/-- C3: within one pipeline run the allocated task directories are
pairwise distinct and distinct from every directory that existed before
the run; in particular a canonical name that already exists is never
reused, a fresh sibling is minted instead. -/
theorem c3_directories_distinct (existing : List Str) (names : List Str) (name : Str) :
    (alloc_run existing names).Nodup
    ∧ (alloc_run existing names).all (fun d => !(memB d existing)) = true
    ∧ memB (get_new_directory existing name) existing = false := by
  refine ⟨alloc_run_nodup names existing, ?_, get_new_directory_fresh existing name⟩
  rw [List.all_eq_true]
  intro d hd
  have hnot := alloc_run_not_mem names existing d hd
  cases hb : memB d existing with
  | true => exact absurd ((memB_eq_true_iff d existing).mp hb) hnot
  | false => simp [hb]

/-- Prerequisite check of the base `Task` class
(`Task.check_prerequisite` in `src/litesoph/common/task.py`): the source
ignores all of its arguments — here the presence map of the declared
required artifacts and the substrate flag — and returns `True`
unconditionally. -/
def check_prerequisite (artifact_present : List (Str × Bool)) (remote : Bool) : Bool :=
  true

/-- C4: `check_prerequisite` returns success unconditionally; in
particular it still reports success when the declared required artifact
`coordinate.xyz` is absent from the local substrate, contradicting its own
docstring and the claimed absent-iff-failure behaviour. -/
theorem c4_check_prerequisite_constant :
    check_prerequisite [(str "coordinate.xyz", false), (str "nwchem/restart", false)] false = true
    ∧ ∀ (artifact_present : List (Str × Bool)) (remote : Bool),
        check_prerequisite artifact_present remote = true :=
  ⟨rfl, fun _ _ => rfl⟩

/-- Execution records of a task (`task_info.network` / `task_info.local`):
a dictionary that may or may not hold a return code under the relevant
key. -/
structure TaskInfoRec where
  network : List (Str × Int)
  local_exec : List (Str × Int)

/-- Dictionary lookup returning the value when the key is present
(mirrors Python `dict.get(key, None)`). -/
def dictGet (d : List (Str × Int)) (k : Str) : Option Int :=
  match d with
  | [] => none
  | (k', v) :: rest => if k' = k then some v else dictGet rest k

/-- A task as seen by `Task.check_output`: its execution records and
whether a network submission object exists
(`hasattr(self, 'submit_network')`). -/
structure TaskRun where
  task_info : TaskInfoRec
  has_submit_network : Bool

/-- The return code of the selected execution record: the network record
when a network submission exists, the local record otherwise. -/
def selected_returncode (t : TaskRun) : Option Int :=
  if t.has_submit_network then dictGet t.task_info.network (str "sub_returncode")
  else dictGet t.task_info.local_exec (str "returncode")

/-- Completion check (`Task.check_output` in
`src/litesoph/common/task.py`): raises `TaskFailed("Job not completed.")`
when the selected record holds no return code, returns `True` otherwise. -/
def check_output (t : TaskRun) : Except Str Bool :=
  let check := if t.has_submit_network then dictGet t.task_info.network (str "sub_returncode")
    else dictGet t.task_info.local_exec (str "returncode")
  match check with
  | none => Except.error (str "Job not completed.")
  | some _ => Except.ok true

/-- C5: `check_output` raises the not-completed error exactly when the
selected execution record (network when a network submission exists,
local otherwise) has no defined return code, and returns `True` exactly
when a return code is defined. -/
theorem c5_check_output_iff (t : TaskRun) :
    (check_output t = Except.error (str "Job not completed.")
      ↔ selected_returncode t = none)
    ∧ (check_output t = Except.ok true
      ↔ (selected_returncode t).isSome = true) := by
  unfold check_output selected_returncode
  cases h : (if t.has_submit_network then dictGet t.task_info.network (str "sub_returncode")
    else dictGet t.task_info.local_exec (str "returncode")) with
  | none => simp [h]
  | some v => simp [h]

/-- Lifecycle flags of a task (`task_info.state`). -/
structure TaskStateFlags where
  input_created : Bool
  input_saved : Bool

/-- `Task.create_input` (`src/litesoph/common/task.py`): sets the
`input_created` flag and then runs the abstract `create_template`, whose
outcome (success or exception) is passed in and propagated. -/
def create_input (st : TaskStateFlags) (create_template_result : Except Str Unit) :
    TaskStateFlags × Except Str Unit :=
  ({ st with input_created := true }, create_template_result)

/-- `Task.save_input` (`src/litesoph/common/task.py`): sets the
`input_saved` flag and then runs the abstract `write_input`, whose outcome
is passed in and propagated. -/
def save_input (st : TaskStateFlags) (write_input_result : Except Str Unit) :
    TaskStateFlags × Except Str Unit :=
  ({ st with input_saved := true }, write_input_result)

/-- C7 (amended): `create_input` sets `input_created` before invoking
`create_template`, so the flag is set even when `create_template` raises;
likewise `save_input` sets `input_saved` before `write_input`; in both
cases the exception still propagates and the other flag is untouched. -/
theorem c7_flags_set_before_call (st : TaskStateFlags) (r : Except Str Unit) :
    (create_input st r).1.input_created = true
    ∧ (create_input st r).2 = r
    ∧ (create_input st r).1.input_saved = st.input_saved
    ∧ (save_input st r).1.input_saved = true
    ∧ (save_input st r).2 = r
    ∧ (save_input st r).1.input_created = st.input_created :=
  ⟨rfl, rfl, rfl, rfl, rfl, rfl⟩

/-- C7 counterexample: starting from cleared flags, when `create_template`
raises, `input_created` is already set (and similarly for `input_saved`
when `write_input` raises), so the claim that the flags remain unset on a
setup exception fails as stated. -/
theorem c7_counterexample :
    (create_input ⟨false, false⟩ (Except.error (str "boom"))).1.input_created = true
    ∧ (create_input ⟨false, false⟩ (Except.error (str "boom"))).2
        = Except.error (str "boom")
    ∧ (save_input ⟨false, false⟩ (Except.error (str "boom"))).1.input_saved = true :=
  ⟨rfl, rfl, rfl⟩

/-- Job-script filename derived from a task identifier
(`Task.BASH_filename`). -/
def BASH_filename_of (id : Str) : Str := str "ls_job_script_" ++ id ++ str ".sh"

/-- The class-level identity of `Task` (`src/litesoph/common/task.py`):
`id = str(uuid.uuid4())` is evaluated once when the class object is
created, so every instance reads the same value. -/
structure TaskClassAttrs where
  id : Str

/-- A task instance as far as identity is concerned: instance attribute
lookup for `id` and `BASH_filename` resolves to the single class-level
value, whatever per-instance data the task carries. -/
structure TaskInstance where
  class_attrs : TaskClassAttrs
  task_name : Str

/-- Construct a task instance of the class described by `cls`. -/
def mkTask (cls : TaskClassAttrs) (task_name : Str) : TaskInstance :=
  { class_attrs := cls, task_name := task_name }

/-- The identifier an instance observes. -/
def task_id (t : TaskInstance) : Str := t.class_attrs.id

/-- The job-script filename an instance observes. -/
def task_bash_filename (t : TaskInstance) : Str := BASH_filename_of t.class_attrs.id

/-- C8: any two task instances created in one run (hence of the same
class object) observe the same identifier and the same job-script
filename — the identifier is generated once at class creation, not per
instance, so distinct instances do not get distinct identifiers. -/
theorem c8_shared_class_identity (cls : TaskClassAttrs) (name1 name2 : Str) :
    task_id (mkTask cls name1) = task_id (mkTask cls name2)
    ∧ task_bash_filename (mkTask cls name1) = task_bash_filename (mkTask cls name2) :=
  ⟨rfl, rfl⟩

/-- The error kinds `format_gs_param` can raise (each an `InputError`,
litesoph's `SetupError` kind, raised synchronously during template
construction). -/
inductive NwInputError where
  | unknown_basis_type
  | unknown_xc
  | unknown_basis
deriving DecidableEq

/-- Ground-state parameter dictionary as read by `format_gs_param`
(`gen_dict.get(...)` — absent keys read as `none`). -/
structure GsDict where
  basis_type : Option Str
  xc : Option Str
  basis : Option Str
  energy_conv : Option Rat
  density_conv : Option Rat
  max_iter : Option Nat
deriving DecidableEq

/-- Modelled from the spec: the engine's accepted value sets for the
exchange-correlation functional and the basis (module
`litesoph/engines/nwchem/task_data.py`, not under `src/`); the theorems
below quantify over arbitrary value sets. -/
structure GsParamData where
  xc_values : List Str
  basis_values : List Str

/-- The rendered `dft` block of the ground-state input. -/
structure DftBlock where
  xc : Str
  convergence_energy : Rat
  convergence_density : Rat
  iterations : Option Nat
deriving DecidableEq

/-- The ground-state engine input assembled by `format_gs_param`; the
`perm` and `geometry` entries are added to it later by `create_engine`. -/
structure GsInput where
  dft : DftBlock
  basis : Str
  perm : Option Str
  geometry : Option Str
deriving DecidableEq

/-- Whether an optional value is present and accepted
(Python `x in values`; an absent key is never in the list). -/
def optMemB (o : Option Str) (values : List Str) : Bool :=
  match o with
  | none => false
  | some v => memB v values

/-- `format_gs_param` (`src/litesoph/engines/nwchem/nwchem_task.py`):
validates `basis_type`, `xc` and `basis` against the accepted value sets,
raising `InputError` on the first violation, and otherwise assembles the
ground-state engine input with the convergence defaults. -/
def format_gs_param (pd : GsParamData) (g : GsDict) : Except NwInputError GsInput :=
  if g.basis_type ≠ some (str "gaussian") then
    Except.error NwInputError.unknown_basis_type
  else
    match g.xc with
    | none => Except.error NwInputError.unknown_xc
    | some x =>
      if memB x pd.xc_values then
        match g.basis with
        | none => Except.error NwInputError.unknown_basis
        | some b =>
          if memB b pd.basis_values then
            Except.ok
              { dft :=
                  { xc := x
                    convergence_energy := g.energy_conv.getD (1 / 100000 : Rat)
                    convergence_density := g.density_conv.getD (1 / 10000000 : Rat)
                    iterations := g.max_iter }
                basis := b
                perm := none
                geometry := none }
          else Except.error NwInputError.unknown_basis
      else Except.error NwInputError.unknown_xc

/-- Whether a result is an error. -/
def isError {ε α : Type} (r : Except ε α) : Bool :=
  match r with
  | Except.error _ => true
  | Except.ok _ => false

/-- C6: template construction for the ground state fails with an
input-validation error precisely when the basis type is not `gaussian`,
or the xc value is not in the engine's accepted xc set, or the basis
value is not in the engine's accepted basis set; with accepted values no
error is raised.  The failure is a value of the function itself, before
any external process is involved. -/
theorem c6_format_gs_param_error_iff (pd : GsParamData) (g : GsDict) :
    isError (format_gs_param pd g) = true
      ↔ (g.basis_type ≠ some (str "gaussian")
          ∨ optMemB g.xc pd.xc_values = false
          ∨ optMemB g.basis pd.basis_values = false) := by
  unfold format_gs_param
  by_cases hbt : g.basis_type = some (str "gaussian")
  · rw [if_neg (by simp [hbt])]
    cases hx : g.xc with
    | none => simp [isError, optMemB, hbt]
    | some x =>
      cases hmx : memB x pd.xc_values with
      | false => simp [isError, optMemB, hbt, hmx]
      | true =>
        simp only [if_pos]
        cases hb : g.basis with
        | none => simp [isError, optMemB, hbt, hmx]
        | some b =>
          cases hmb : memB b pd.basis_values with
          | false => simp [isError, optMemB, hbt, hmx, hmb]
          | true => simp [isError, optMemB, hbt, hmx, hmb]
  · rw [if_pos (by simp [hbt])]
    simp [isError, hbt]

/-- Path concatenation (pathlib `/`). -/
def pjoin (a b : Str) : Str := a ++ str "/" ++ b

/-- Parent path of a directory (pathlib `.parent`): the text before the
final slash. -/
def parentDir (p : Str) : Str :=
  ((p.reverse.dropWhile (fun c => ¬ (c = '/'))).drop 1).reverse

/-- Relative path (pathlib `.relative_to`): the text after the base
prefix and its separating slash. -/
def relative_to (p base : Str) : Str := p.drop (base.length + 1)

/-- Dictionary update for string-valued mappings (Python `d[k] = v`). -/
def dictSetStr (d : List (Str × Str)) (k v : Str) : List (Str × Str) :=
  (k, v) :: d.filter (fun kv => ¬ (kv.1 = k))

/-- The `engine_input` entry of a task's input mapping. -/
structure EngineInputRec where
  path : Option Str
  data : Option Str

/-- A Python value stored in a parameter dictionary: `None`, a string, a
number, an integer, a boolean, a list or a nested dictionary. -/
inductive PVal where
  | vnone : PVal
  | vstr : Str → PVal
  | vrat : Rat → PVal
  | vint : Int → PVal
  | vbool : Bool → PVal
  | vlist : List PVal → PVal
  | vdict : List (Str × PVal) → PVal

/-- Dictionary lookup (Python `d.get(k)` / `d[k]`). -/
def dictGetP (d : List (Str × PVal)) (k : Str) : Option PVal :=
  match d with
  | [] => none
  | (k', v) :: rest => if k' = k then some v else dictGetP rest k

/-- Dictionary with a key removed (the removal effect of `d.pop(k)`). -/
def dictDelP (d : List (Str × PVal)) (k : Str) : List (Str × PVal) :=
  d.filter (fun kv => ¬ (kv.1 = k))

/-- Dictionary update (Python `d[k] = v`; read as a key-value map, entry
order is irrelevant to the claims). -/
def dictSetP (d : List (Str × PVal)) (k : Str) (v : PVal) : List (Str × PVal) :=
  (k, v) :: dictDelP d k

/-- Numeric reading of a value (Python arithmetic accepts int and float). -/
def pvAsRat : PVal → Option Rat
  | PVal.vrat q => some q
  | PVal.vint i => some (i : Rat)
  | _ => none

/-- List reading of a value. -/
def pvAsList : PVal → Option (List PVal)
  | PVal.vlist l => some l
  | _ => none

/-- Python truthiness of a stored value (`if lasers:`). -/
def pvTruthy : PVal → Bool
  | PVal.vnone => false
  | PVal.vstr s => !(s.isEmpty)
  | PVal.vrat q => if q = 0 then false else true
  | PVal.vint i => if i = 0 then false else true
  | PVal.vbool b => b
  | PVal.vlist l => !(l.isEmpty)
  | PVal.vdict d => !(d.isEmpty)

/-- Whether a string occurs in a list of values (Python `s in l`, which
compares with equality element by element). -/
def strInPVList (s : Str) (l : List PVal) : Bool :=
  l.any (fun p =>
    match p with
    | PVal.vstr t => t = s
    | _ => false)

/-- Rounding to two decimal places (Python `round(x, 2)`; the exact
tie-breaking mode does not matter to the claims below). -/
def round2 (x : Rat) : Rat := ((round (x * 100) : Int) : Rat) / 100

/-- `read_pol_dir` (`src/litesoph/engines/nwchem/nwchem_task.py`): maps
the polarization vectors [1,0,0], [0,1,0], [0,0,1] to an axis index and
letter; any other value falls through (the source returns `None`, and its
callers subscript the result, raising). -/
def read_pol_dir : PVal → Option (Nat × Str)
  | PVal.vlist [PVal.vint 1, PVal.vint 0, PVal.vint 0] => some (0, str "x")
  | PVal.vlist [PVal.vint 0, PVal.vint 1, PVal.vint 0] => some (1, str "y")
  | PVal.vlist [PVal.vint 0, PVal.vint 0, PVal.vint 1] => some (2, str "z")
  | _ => none

/-- `out_print` (`src/litesoph/engines/nwchem/nwchem_task.py`): the
`print` list of the `rt_tddft` block, derived from the requested
properties. -/
def out_print (property : List PVal) : List PVal :=
  (if strInPVList (str "spectrum") property then [PVal.vstr (str "dipole")] else [])
  ++ (if strInPVList (str "mo_population") property then [PVal.vstr (str "moocc")] else [])

/-- `add_gaussian_laser` (`src/litesoph/engines/nwchem/nwchem_task.py`):
builds the field dictionary of a gaussian laser; a missing key or a
malformed polarization raises in the source and yields `none` here. -/
def add_gaussian_laser (name : Str) (laser : List (Str × PVal)) :
    Option (List (Str × PVal)) :=
  match dictGetP laser (str "polarization") with
  | none => none
  | some polv =>
    match read_pol_dir polv with
    | none => none
    | some pd =>
      match dictGetP laser (str "frequency"), dictGetP laser (str "time0"),
          dictGetP laser (str "sigma"), dictGetP laser (str "strength") with
      | some freq, some t0, some sigma, some strength =>
        some [(str "name", PVal.vstr (name ++ str "_" ++ pd.2)),
          (str "type", PVal.vstr (str "gaussian")),
          (str "frequency", freq),
          (str "center", t0),
          (str "width", sigma),
          (str "polarization", PVal.vstr pd.2),
          (str "max", strength)]
      | _, _, _, _ => none

/-- `add_delta_laser` (`src/litesoph/engines/nwchem/nwchem_task.py`):
builds the field dictionary of a delta laser. -/
def add_delta_laser (name : Str) (laser : List (Str × PVal)) :
    Option (List (Str × PVal)) :=
  match dictGetP laser (str "polarization") with
  | none => none
  | some polv =>
    match read_pol_dir polv with
    | none => none
    | some pd =>
      match dictGetP laser (str "strength") with
      | some strength =>
        some [(str "name", PVal.vstr (name ++ str "_" ++ pd.2)),
          (str "type", PVal.vstr (str "delta")),
          (str "polarization", PVal.vstr pd.2),
          (str "max", strength)]
      | none => none

/-- The enumerated laser loop of `update_td_param`: each laser dictionary
gets the shared polarization when it declares none, and is rendered by
`add_gaussian_laser` or `add_delta_laser` according to its type; a
non-dictionary entry, a missing or unknown type raises in the source
(unbound `laser_dict` on the first iteration) and yields `none` here. -/
def build_laser_list (pol : PVal) : Nat → List PVal → Option (List PVal)
  | _, [] => some []
  | i, l :: rest =>
    match l with
    | PVal.vdict ld =>
      let ld := if (dictGetP ld (str "polarization")).isSome then ld
        else dictSetP ld (str "polarization") pol
      match dictGetP ld (str "type") with
      | some (PVal.vstr t) =>
        if t = str "gaussian" then
          match add_gaussian_laser (natToStr i) ld with
          | none => none
          | some d =>
            match build_laser_list pol (i + 1) rest with
            | none => none
            | some ds => some (PVal.vdict d :: ds)
        else if t = str "delta" then
          match add_delta_laser (natToStr i) ld with
          | none => none
          | some d =>
            match build_laser_list pol (i + 1) rest with
            | none => none
            | some ds => some (PVal.vdict d :: ds)
        else none
      | _ => none
    | _ => none

/-- `update_td_param` (`src/litesoph/engines/nwchem/nwchem_task.py`):
pops the user-level time-propagation keys from the (copied) parameter
dictionary and writes the assembled `rt_tddft` block — tmax, dt, print
list and the field (laser list, or the kick derived from the shared
polarization and strength) — back into that dictionary.  `as_to_au` is
the attosecond-to-atomic-units conversion factor
(`litesoph/utilities/units.py`, not under `src/`), passed in explicitly.
A missing mandatory key, a non-numeric step value, a non-list properties
value, a malformed polarization or an unknown laser type raises in the
source and yields `none` here. -/
def update_td_param (as_to_au : Rat) (param : List (Str × PVal)) :
    Option (List (Str × PVal)) :=
  let strength := (dictGetP param (str "strength")).getD PVal.vnone
  let param := dictDelP param (str "strength")
  let pol := (dictGetP param (str "polarization")).getD PVal.vnone
  let param := dictDelP param (str "polarization")
  match dictGetP param (str "time_step"), dictGetP param (str "number_of_steps"),
      dictGetP param (str "output_freq"), dictGetP param (str "properties") with
  | some time_step, some num_step, some _, some properties =>
    let param := dictDelP (dictDelP (dictDelP (dictDelP param (str "time_step"))
      (str "number_of_steps")) (str "output_freq")) (str "properties")
    let lasers := (dictGetP param (str "laser")).getD PVal.vnone
    let param := dictDelP param (str "laser")
    let param := dictDelP param (str "masking")
    match pvAsRat time_step, pvAsRat num_step, pvAsList properties with
    | some ts, some ns, some props =>
      let rt_core : List (Str × PVal) :=
        [(str "tmax", PVal.vrat (round2 (ns * ts * as_to_au))),
          (str "dt", PVal.vrat (round2 (ts * as_to_au))),
          (str "print", PVal.vlist (out_print props))]
      if pvTruthy lasers then
        let laser_l : List PVal :=
          match lasers with
          | PVal.vlist l => l
          | other => [other]
        let param := dictDelP param (str "delay")
        match build_laser_list pol 0 laser_l with
        | none => none
        | some ds =>
          some (dictSetP param (str "rt_tddft")
            (PVal.vdict (rt_core ++ [(str "field", PVal.vlist ds)])))
      else
        match read_pol_dir pol with
        | none => none
        | some pd =>
          some (dictSetP param (str "rt_tddft")
            (PVal.vdict (rt_core ++ [(str "field", PVal.vdict
              [(str "name", PVal.vstr (str "kick_" ++ pd.2)),
                (str "type", PVal.vstr (str "delta")),
                (str "polarization", PVal.vstr pd.2),
                (str "max", strength)])])))
    | _, _, _ => none
  | _, _, _, _ => none

/-- The task types `BaseNwchemTask` implements: the simulation tasks
(ground state and real-time TDDFT) and the post-processing tasks
(spectrum and MO population).  The `TaskTypes` constants live in
`litesoph/common/task_data.py` (not under `src/`); their strings are
taken from the keys of `nwchem_data`. -/
inductive NwTaskName where
  | ground_state
  | rt_tddft
  | compute_spectrum
  | mo_population
deriving DecidableEq

/-- The task-name string used for the task directory
(`project_dir / 'nwchem' / task_name`). -/
def nwTaskNameStr : NwTaskName → Str
  | NwTaskName.ground_state => str "ground_state"
  | NwTaskName.rt_tddft => str "rt_tddft"
  | NwTaskName.compute_spectrum => str "spectrum"
  | NwTaskName.mo_population => str "mo_population"

/-- Whether the task is one of `simulation_tasks` (`[GROUND_STATE,
RT_TDDFT]`); the other implemented tasks are `post_processing_tasks`. -/
def nw_is_simulation : NwTaskName → Bool
  | NwTaskName.ground_state => true
  | NwTaskName.rt_tddft => true
  | _ => false

/-- The `file_name` entry of `nwchem_data` for the task (absent for the
post-processing tasks). -/
def nw_file_name : NwTaskName → Option Str
  | NwTaskName.ground_state => some (str "gs")
  | NwTaskName.rt_tddft => some (str "td")
  | _ => none

/-- The engine input file name, `file_name + '.nwi'`. -/
def nw_infile (k : NwTaskName) : Option Str :=
  (nw_file_name k).map (fun f => f ++ str ".nwi")

/-- The engine output file name, `file_name + '.nwo'`. -/
def nw_outfile (k : NwTaskName) : Option Str :=
  (nw_file_name k).map (fun f => f ++ str ".nwo")

/-- The fields `format_gs_param` reads from the parameter dictionary
(each a `gen_dict.get(...)`): string-valued entries for the basis type,
xc and basis, numeric convergence entries, an integer iteration cap;
entries of other shapes read as absent. -/
def gsDictView (d : List (Str × PVal)) : GsDict :=
  { basis_type :=
      match dictGetP d (str "basis_type") with
      | some (PVal.vstr s) => some s
      | _ => none
    xc :=
      match dictGetP d (str "xc") with
      | some (PVal.vstr s) => some s
      | _ => none
    basis :=
      match dictGetP d (str "basis") with
      | some (PVal.vstr s) => some s
      | _ => none
    energy_conv :=
      match dictGetP d (str "energy_conv") with
      | some v => pvAsRat v
      | none => none
    density_conv :=
      match dictGetP d (str "density_conv") with
      | some v => pvAsRat v
      | none => none
    max_iter :=
      match dictGetP d (str "max_iter") with
      | some (PVal.vint i) => some i.toNat
      | _ => none }

/-- The translated user input a task carries: the structured ground-state
input, or the (rewritten) parameter dictionary for the other tasks. -/
inductive NwUserInput where
  | gs : GsInput → NwUserInput
  | dict : List (Str × PVal) → NwUserInput

/-- Errors `BaseNwchemTask.__init__` can raise: an `InputError` from the
ground-state parameter validation, or a runtime error (missing mandatory
key, malformed polarization, unknown laser type) from the time-propagation
parameter translation. -/
inductive NwTaskError where
  | input_error : NwInputError → NwTaskError
  | runtime_error : NwTaskError

/-- The task record as touched by the NWChem tasks: the declared
parameter dictionary, the accumulated engine parameters, the engine input
entry and the output mapping. -/
structure TaskInfoNw where
  param : List (Str × PVal)
  engine_param : Option NwUserInput
  engine_input : Option EngineInputRec
  output : List (Str × Str)

/-- The state of a constructed `BaseNwchemTask`: its record, the
translated user input, the task type, the allocated directory, the input
and output file names (absent for post-processing tasks, whose
`create_engine` returns before setting them), and the configured
executable paths. -/
structure NwTask where
  task_info : TaskInfoNw
  user_input : NwUserInput
  task_name : NwTaskName
  task_dir : Str
  infile : Option Str
  outfile : Option Str
  engine_path : Str
  mpi_path : Str
  project_dir : Str
  job_script : Option Str

/-- The translated user input computed by `__init__`/`create_engine` on
the deep copy of the parameter dictionary: for the ground state,
`format_gs_param` (raising on invalid values) followed by the `perm` and
`geometry` entries; for `rt_tddft`, the copy extended with `perm`,
`geometry`, `restart_kw` and the predecessor's basis
(`dependent_tasks[0].engine_param.get('basis')`, passed in) and rewritten
in place by `update_td_param`; for the post-processing tasks, the copy
unmodified (`create_engine` returns before touching it). -/
def nw_user_input (pd : GsParamData) (as_to_au : Rat) (task_name : NwTaskName)
    (dependent_basis : PVal) (task_dir project_dir : Str)
    (param : List (Str × PVal)) : Except NwTaskError NwUserInput :=
  match task_name with
  | NwTaskName.ground_state =>
    match format_gs_param pd (gsDictView param) with
    | Except.error e => Except.error (NwTaskError.input_error e)
    | Except.ok gs =>
      Except.ok (NwUserInput.gs { gs with
        perm := some (pjoin (parentDir task_dir) (str "restart"))
        geometry := some (pjoin project_dir (str "coordinate.xyz")) })
  | NwTaskName.rt_tddft =>
    let d := dictSetP param (str "perm")
      (PVal.vstr (pjoin (parentDir task_dir) (str "restart")))
    let d := dictSetP d (str "geometry")
      (PVal.vstr (pjoin project_dir (str "coordinate.xyz")))
    let d := dictSetP d (str "restart_kw") (PVal.vstr (str "restart"))
    let d := dictSetP d (str "basis") dependent_basis
    match update_td_param as_to_au d with
    | none => Except.error NwTaskError.runtime_error
    | some d' => Except.ok (NwUserInput.dict d')
  | _ => Except.ok (NwUserInput.dict param)

/-- The task-record writes of `create_engine`: `input['engine_input']` is
reset to an empty entry for every task; for the simulation tasks the
engine-input path and the `txt_out` output entry are then written, while
the post-processing tasks return before these writes.  The `param` field
is never assigned. -/
def nw_record_writes (task_name : NwTaskName) (task_dir project_dir : Str)
    (ti : TaskInfoNw) : TaskInfoNw :=
  if nw_is_simulation task_name then
    { ti with
      engine_input := some
        { path := some (pjoin (relative_to task_dir project_dir)
            ((nw_infile task_name).getD []))
          data := none }
      output := dictSetStr ti.output (str "txt_out")
        (pjoin (relative_to task_dir project_dir) ((nw_outfile task_name).getD [])) }
  else { ti with engine_input := some { path := none, data := none } }

theorem nw_record_writes_param (task_name : NwTaskName) (task_dir project_dir : Str)
    (ti : TaskInfoNw) :
    (nw_record_writes task_name task_dir project_dir ti).param = ti.param := by
  unfold nw_record_writes
  split <;> rfl

/-- `BaseNwchemTask.__init__` together with `create_engine`
(`src/litesoph/engines/nwchem/nwchem_task.py`), for every implemented
task type: the parameter dictionary is deep-copied and translated
(`nw_user_input`, raising on invalid or missing values), a fresh task
directory is allocated, and the record writes of `create_engine` are
applied; the `NWChem` calculator object the source also constructs is
outside the record and not modelled. -/
def baseNwchemTask_init (pd : GsParamData) (as_to_au : Rat)
    (task_name : NwTaskName) (existing_dirs : List Str)
    (project_dir engine_path mpi_path : Str) (dependent_basis : PVal)
    (ti : TaskInfoNw) : Except NwTaskError NwTask :=
  let task_dir := get_new_directory existing_dirs
    (pjoin (pjoin project_dir (str "nwchem")) (nwTaskNameStr task_name))
  match nw_user_input pd as_to_au task_name dependent_basis task_dir project_dir
      ti.param with
  | Except.error e => Except.error e
  | Except.ok ui =>
    Except.ok
      { task_info := nw_record_writes task_name task_dir project_dir ti
        user_input := ui
        task_name := task_name
        task_dir := task_dir
        infile := nw_infile task_name
        outfile := nw_outfile task_name
        engine_path := engine_path
        mpi_path := mpi_path
        project_dir := project_dir
        job_script := none }

/-- `BaseNwchemTask.create_template`: stores the engine input rendered by
the `NWChem` calculator (passed in, the calculator class is outside the
orchestration core), merges the translated user input into
`engine_param`, and stores the rendered text in the engine-input entry;
`param` is not assigned. -/
def nw_create_template (rendered : Str) (t : NwTask) : NwTask :=
  { t with task_info := { t.task_info with
      engine_param := some t.user_input
      engine_input := some
        { path := (match t.task_info.engine_input with
            | none => none
            | some ei => ei.path)
          data := some rendered } } }

/-- Modelled from the spec: `BaseNwchemTask.write_input` delegates to
`NWChem.write_input` (class `NWChem`, not under `src/`), which creates
the task directory when absent and persists the rendered input text to
the input path; the task record is untouched. -/
def nw_write_input (t : NwTask) (fs_dirs : List Str) (fs_files : List (Str × Str)) :
    (List Str × List (Str × Str)) × NwTask :=
  let fs_dirs' := if memB t.task_dir fs_dirs then fs_dirs else t.task_dir :: fs_dirs
  let rendered := match t.task_info.engine_input with
    | none => []
    | some ei => match ei.data with
      | none => []
      | some d => d
  ((fs_dirs', dictSetStr fs_files (pjoin t.task_dir (t.infile.getD [])) rendered), t)

/-- The environment-bootstrap block for remote NWChem jobs
(`BaseNwchemTask.get_engine_network_job_cmd`): commented-out hints the
user is expected to edit. -/
def nwchem_network_job_block : Str := str "\n##### Please Provide the Excutable Path or environment of NWCHEM or load the module\n\n#eval \"$(conda shell.bash hook)\"\n#conda activate <environment name>\n\n#module load nwchem"

/-- `BaseNwchemTask.create_job_script`: for remote paths the engine path
is replaced by the bare `nwchem`; for a simulation task the engine
command line is built and the job script assembled (remote or local) and
stored on the instance; for a post-processing task the source falls
through its guard and raises on the unassigned local `job_script`,
modelled as `none`.  The task record is never written. -/
def nw_create_job_script (t : NwTask) (np : Int) (remote_path : Option Str) :
    Option (NwTask × Str) :=
  let engine_path := if remote_path.isSome then str "nwchem" else t.engine_path
  if nw_is_simulation t.task_name then
    match t.infile, t.outfile with
    | some infile, some outfile =>
      let engine_cmd := engine_path ++ str " " ++ infile ++ str " > " ++ outfile
      let script := match remote_path with
        | some rp =>
          assemable_job_cmd (some engine_cmd) np
            (some (pjoin rp (relative_to t.task_dir (parentDir (parentDir t.project_dir)))))
            none true none
            (some nwchem_network_job_block) none
        | none =>
          assemable_job_cmd (some engine_cmd) np (some t.task_dir) (some t.mpi_path)
            false none none none
      some ({ t with engine_path := engine_path, job_script := some script }, script)
    | _, _ => none
  else none

/-- C9: for every implemented task type — ground state (translated by
`format_gs_param`), rt_tddft (rewritten in place by `update_td_param`,
which pops and adds keys of the deep copy only) and the post-processing
tasks — the declared parameter dictionary stored in the task record is
left unchanged by construction, by `create_template`, by `write_input`
and by `create_job_script`: after any prefix of the setup chain the
record's `param` equals its value at creation. -/
theorem c9_param_immutable (pd : GsParamData) (as_to_au : Rat)
    (task_name : NwTaskName) (existing_dirs : List Str)
    (project_dir engine_path mpi_path : Str) (dependent_basis : PVal)
    (ti : TaskInfoNw) (rendered : Str) (fs_dirs : List Str)
    (fs_files : List (Str × Str)) (np : Int) (remote_path : Option Str) :
    match baseNwchemTask_init pd as_to_au task_name existing_dirs project_dir
        engine_path mpi_path dependent_basis ti with
    | Except.error _ => True
    | Except.ok t =>
        t.task_info.param = ti.param
        ∧ (nw_create_template rendered t).task_info.param = ti.param
        ∧ ((nw_write_input (nw_create_template rendered t) fs_dirs fs_files).2).task_info.param
            = ti.param
        ∧ (match nw_create_job_script
              ((nw_write_input (nw_create_template rendered t) fs_dirs fs_files).2)
              np remote_path with
            | none => True
            | some ts => ts.1.task_info.param = ti.param) := by
  cases h : nw_user_input pd as_to_au task_name dependent_basis
      (get_new_directory existing_dirs
        (pjoin (pjoin project_dir (str "nwchem")) (nwTaskNameStr task_name)))
      project_dir ti.param with
  | error e => simp [baseNwchemTask_init, h]
  | ok ui =>
    simp only [baseNwchemTask_init, h]
    refine ⟨nw_record_writes_param _ _ _ _, nw_record_writes_param _ _ _ _,
      nw_record_writes_param _ _ _ _, ?_⟩
    cases task_name <;> trivial
